import Mathlib

/-!
# Descriptor management sample

A shallow embedding of `samples/performance/descriptor_management/descriptor_management.cpp`:
the constructor, `prepare`, `update` and `draw_gui` of `DescriptorManagement`, together with
the frame state machine, buffer arena and descriptor cache that the sample toggles.

Calls into the framework are kept as named steps.  What a framework call does to the two
option values is left to an environment, so every statement about `update` holds whatever
those calls do to the options.  A framework call may also raise an exception, which neither
`prepare` nor `update` catches: `exec`, `run` and `update` give the effect of statements that
return, and `execute` and `updateRaising` stop at the first call that raises.
-/

namespace DescriptorManagement

/-! ## Strategy enumerations -/

/-- Values of `vkb::rendering::BufferAllocationStrategy` used by the sample. -/
inductive BufferAllocationStrategy where
  | OneAllocationPerBuffer
  | MultipleAllocationsPerBuffer
  deriving DecidableEq, Repr

/-- Values of `vkb::rendering::DescriptorManagementStrategy` used by the sample. -/
inductive DescriptorManagementStrategy where
  | CreateDirectly
  | StoreInCache
  deriving DecidableEq, Repr

/-! ## Frame state machine -/

/-- Modelled from the spec: the states of the Frame Resource Context (the class behind
`render_context.get_active_frame()` is not part of the sample file). -/
inductive FrameState where
  | Idle
  | Acquired
  | Recording
  | Submitted
  deriving DecidableEq, Repr

/-- Modelled from the spec: error kinds of the frame resource context. -/
inductive FrameError where
  | InvalidFrameState
  deriving DecidableEq, Repr

/-- Modelled from the spec: begin-frame takes an Idle slot to Acquired; a Submitted slot is
recycled (Submitted to Idle) and then acquired.  The spec names no transition from the two
active states, so they are left as they are. -/
def FrameState.onBegin : FrameState → FrameState
  | .Idle => .Acquired
  | .Submitted => .Acquired
  | .Acquired => .Acquired
  | .Recording => .Recording

/-- Modelled from the spec: command-buffer submission ends the recording of the frame; a slot
that is not active is left as it is. -/
def FrameState.onSubmit : FrameState → FrameState
  | .Acquired => .Submitted
  | .Recording => .Submitted
  | .Idle => .Idle
  | .Submitted => .Submitted

/-- The frame slot that `render_context.begin()` makes the active frame. -/
structure RenderFrame where
  state : FrameState
  buffer_allocation_strategy : BufferAllocationStrategy
  descriptor_management_strategy : DescriptorManagementStrategy
  deriving DecidableEq, Repr

/-- Setter `RenderFrame::set_buffer_allocation_strategy`. -/
def RenderFrame.set_buffer_allocation_strategy (f : RenderFrame)
    (new_strategy : BufferAllocationStrategy) : RenderFrame :=
  { f with buffer_allocation_strategy := new_strategy }

/-- Setter `RenderFrame::set_descriptor_management_strategy`. -/
def RenderFrame.set_descriptor_management_strategy (f : RenderFrame)
    (new_strategy : DescriptorManagementStrategy) : RenderFrame :=
  { f with descriptor_management_strategy := new_strategy }

/-- Modelled from the spec: a buffer or descriptor-set request succeeds only in Acquired or
Recording (and moves the frame to Recording); in any other state it fails fast with
`InvalidFrameState`. -/
def RenderFrame.request (f : RenderFrame) : Except FrameError RenderFrame :=
  match f.state with
  | .Acquired => .ok { f with state := .Recording }
  | .Recording => .ok { f with state := .Recording }
  | .Idle => .error .InvalidFrameState
  | .Submitted => .error .InvalidFrameState

/-! ## `DescriptorManagement::update` -/

/-- The two kinds of resource request that draw code sends to the active frame. -/
inductive ResourceRequest where
  | allocate_buffer
  | get_descriptor_set
  deriving DecidableEq, Repr

/-- One resource request as it was issued: the frame state it met and whether it succeeded. -/
structure RequestRecord where
  request : ResourceRequest
  state_at_issue : FrameState
  succeeded : Bool
  deriving DecidableEq, Repr

/-- The statements of `DescriptorManagement::update`, one constructor for each call and
each local variable, in the vocabulary of the source. -/
inductive Stmt where
  | application_update
  | update_scene
  | update_gui
  | get_render_context
  | render_context_begin
  | update_stats
  | select_buffer_alloc_strategy
  | set_buffer_allocation_strategy
  | select_descriptor_management_strategy
  | set_descriptor_management_strategy
  | command_buffer_begin
  | begin_sampling
  | draw
  | end_sampling
  | command_buffer_end
  | render_context_submit
  deriving DecidableEq, Repr

/-- The body of `DescriptorManagement::update`, statement by statement. -/
def updateBody : List Stmt :=
  [ .application_update,
    .update_scene,
    .update_gui,
    .get_render_context,
    .render_context_begin,
    .update_stats,
    .select_buffer_alloc_strategy,
    .set_buffer_allocation_strategy,
    .select_descriptor_management_strategy,
    .set_descriptor_management_strategy,
    .command_buffer_begin,
    .begin_sampling,
    .draw,
    .end_sampling,
    .command_buffer_end,
    .render_context_submit ]

/-- The values `descriptor_caching.value` and `buffer_allocation.value` of the sample. -/
structure OptionValues where
  descriptor_caching : Int
  buffer_allocation : Int
  deriving DecidableEq, Repr

/-- What surrounds `update`: how each framework call changes the two option values (GUI
input, for one), what `render_context.begin()` does to the slot it acquires (it is called
without arguments, so it sees the slot and not the option values), and the resource requests
that `draw` sends to the active frame. -/
structure Env where
  external : Stmt → OptionValues → OptionValues
  begin_frame : RenderFrame → RenderFrame
  draw_requests : List ResourceRequest

/-- The state `update` works on: the option values, its two local variables (unset before
their definition is reached), the frame slot and the log of resource requests. -/
structure UpdateState where
  values : OptionValues
  buffer_alloc_strategy : Option BufferAllocationStrategy
  descriptor_management_strategy : Option DescriptorManagementStrategy
  frame : RenderFrame
  requests : List RequestRecord
  deriving DecidableEq, Repr

/-- Source lines 83 to 85: the ternary on `buffer_allocation.value`. -/
def selectBufferAllocStrategy (value : Int) : BufferAllocationStrategy :=
  if value = 0 then .OneAllocationPerBuffer else .MultipleAllocationsPerBuffer

/-- Source lines 89 to 91: the ternary on `descriptor_caching.value`. -/
def selectDescriptorManagementStrategy (value : Int) : DescriptorManagementStrategy :=
  if value = 0 then .CreateDirectly else .StoreInCache

/-- A framework call seen from the sample: it may change the option values. -/
def callExternal (env : Env) (st : Stmt) (s : UpdateState) : UpdateState :=
  { s with values := env.external st s.values }

/-- One resource request sent to the active frame, logged with the state it met. -/
def issueRequest (s : UpdateState) (r : ResourceRequest) : UpdateState :=
  match s.frame.request with
  | .ok f => { s with frame := f, requests := s.requests ++ [⟨r, s.frame.state, true⟩] }
  | .error _ => { s with requests := s.requests ++ [⟨r, s.frame.state, false⟩] }

/-- The call `draw(*command_buffer, ...)`: the only statement that sends resource requests. -/
def drawFrame (env : Env) (s : UpdateState) : UpdateState :=
  env.draw_requests.foldl issueRequest (callExternal env .draw s)

/-- Effect of one statement of `update` that returns. -/
def exec (env : Env) (st : Stmt) (s : UpdateState) : UpdateState :=
  match st with
  | .render_context_begin =>
      let s1 := callExternal env st s
      { s1 with frame := { (env.begin_frame s1.frame) with state := s1.frame.state.onBegin } }
  | .select_buffer_alloc_strategy =>
      let b := selectBufferAllocStrategy s.values.buffer_allocation
      { s with buffer_alloc_strategy := some b }
  | .set_buffer_allocation_strategy =>
      match s.buffer_alloc_strategy with
      | some b => { s with frame := s.frame.set_buffer_allocation_strategy b }
      | none => s
  | .select_descriptor_management_strategy =>
      let d := selectDescriptorManagementStrategy s.values.descriptor_caching
      { s with descriptor_management_strategy := some d }
  | .set_descriptor_management_strategy =>
      match s.descriptor_management_strategy with
      | some d => { s with frame := s.frame.set_descriptor_management_strategy d }
      | none => s
  | .draw => drawFrame env s
  | .render_context_submit =>
      let s1 := callExternal env st s
      { s1 with frame := { s1.frame with state := s1.frame.state.onSubmit } }
  | _ => callExternal env st s

/-- Statements executed in order, each of them returning. -/
def run (env : Env) (stmts : List Stmt) (s : UpdateState) : UpdateState :=
  stmts.foldl (fun acc st => exec env st acc) s

/-- The state once the first `k` statements of `update` have returned. -/
def stateAfter (env : Env) (s : UpdateState) (k : Nat) : UpdateState :=
  run env (updateBody.take k) s

/-- One call of `DescriptorManagement::update` in which every framework call returns. -/
def update (env : Env) (s : UpdateState) : UpdateState :=
  run env updateBody s

/-! ## `update` with framework calls that raise -/

/-- How a call of `update` ends: it returns, or a framework call raises an exception, which
`update` does not catch. -/
inductive UpdateOutcome where
  | returned
  | raised (st : Stmt)
  deriving DecidableEq, Repr

/-- The statements of `update` that call into the framework.  The two local variables are
defined by a ternary on an `int` and cannot raise. -/
def Stmt.isCall : Stmt → Bool
  | .select_buffer_alloc_strategy => false
  | .select_descriptor_management_strategy => false
  | _ => true

/-- Which framework calls raise, and how many of its resource requests `draw` has sent by
the time it raises. -/
structure Faults where
  raises : Stmt → Bool
  draw_sent : Nat

/-- A statement ends `update` when it is a framework call that raises. -/
def Faults.stops (faults : Faults) (st : Stmt) : Bool :=
  st.isCall && faults.raises st

/-- What a framework call that raises leaves behind.  It may have changed the option values,
and `draw` has sent the first `draw_sent` of its requests; the frame is otherwise untouched:
a `begin` that raises acquires nothing, a setter that raises sets nothing and a `submit` that
raises submits nothing. -/
def execRaised (env : Env) (faults : Faults) (st : Stmt) (s : UpdateState) : UpdateState :=
  match st with
  | .draw =>
      (env.draw_requests.take faults.draw_sent).foldl issueRequest (callExternal env .draw s)
  | _ => callExternal env st s

/-- A run of `update`: how it ended, the state it left, and every statement it reached,
each with the state in which the statement started. -/
structure UpdateRun where
  outcome : UpdateOutcome
  state : UpdateState
  steps : List (Stmt × UpdateState)
  deriving DecidableEq, Repr

/-- The statements a run reached, in order; if the run was ended by an exception, the last
one is the call that raised. -/
def UpdateRun.calls (r : UpdateRun) : List Stmt :=
  r.steps.map Prod.fst

/-- Statements executed in order until one raises: the exception leaves `update` at once,
since the source has no handler. -/
def execute (env : Env) (faults : Faults) : List Stmt → UpdateState → UpdateRun
  | [], s => { outcome := .returned, state := s, steps := [] }
  | st :: rest, s =>
      if faults.stops st then
        { outcome := .raised st, state := execRaised env faults st s, steps := [(st, s)] }
      else
        let r := execute env faults rest (exec env st s)
        { r with steps := (st, s) :: r.steps }

/-- One call of `DescriptorManagement::update` in which framework calls may raise. -/
def updateRaising (env : Env) (faults : Faults) (s : UpdateState) : UpdateRun :=
  execute env faults updateBody s

/-- Every statement of a list with the state in which it starts, when all of them return. -/
def statesFrom (env : Env) : List Stmt → UpdateState → List (Stmt × UpdateState)
  | [], _ => []
  | st :: rest, s => (st, s) :: statesFrom env rest (exec env st s)

/-! ## The constructor and the benchmark configurations -/

/-- The option an `IntSetting` refers to. -/
inductive OptionHandle where
  | descriptor_caching
  | buffer_allocation
  deriving DecidableEq, Repr

/-- A `vkb::IntSetting`: a reference to an option value and the number to store there. -/
structure IntSetting where
  handle : OptionHandle
  value : Int
  deriving DecidableEq, Repr

/-- The call `IntSetting::set`: store the number into the option the setting refers to. -/
def IntSetting.set (setting : IntSetting) (v : OptionValues) : OptionValues :=
  match setting.handle with
  | .descriptor_caching => { v with descriptor_caching := setting.value }
  | .buffer_allocation => { v with buffer_allocation := setting.value }

/-- The configuration object of the sample: the settings in the order of their insertion,
each with the index of the configuration it belongs to. -/
abbrev Configuration := List (Nat × IntSetting)

/-- The call `config.insert<vkb::IntSetting>(config_index, handle, value)`. -/
def Configuration.insert (config : Configuration) (config_index : Nat) (handle : OptionHandle)
    (value : Int) : Configuration :=
  config ++ [(config_index, { handle := handle, value := value })]

/-- The configurations that have at least one setting. -/
def Configuration.indices (config : Configuration) : List Nat :=
  (config.map Prod.fst).dedup

/-- The settings of one configuration, in insertion order. -/
def Configuration.settings (config : Configuration) (config_index : Nat) : List IntSetting :=
  (config.filter (fun e => e.1 = config_index)).map Prod.snd

/-- Selecting a configuration applies each of its settings in turn. -/
def Configuration.apply (config : Configuration) (config_index : Nat) (v : OptionValues) :
    OptionValues :=
  (config.settings config_index).foldl (fun acc setting => setting.set acc) v

/-- The body of the constructor `DescriptorManagement::DescriptorManagement`, run on the
configuration returned by `get_configuration()`. -/
def construct (config : Configuration) : Configuration :=
  (((config.insert 0 .descriptor_caching 0).insert 0 .buffer_allocation 0).insert
    1 .descriptor_caching 1).insert 1 .buffer_allocation 1

/-- An environment in which no framework call touches the option values. -/
def quietEnv (begin_frame : RenderFrame → RenderFrame) (draw_requests : List ResourceRequest) :
    Env :=
  { external := fun _ v => v, begin_frame := begin_frame, draw_requests := draw_requests }

/-! ## `DescriptorManagement::prepare` -/

/-- The calls `prepare` makes after the parent has prepared, in the order of the source. -/
inductive PrepareStep where
  | load_scene
  | add_free_camera
  | cast_camera
  | vert_shader
  | frag_shader
  | make_forward_subpass
  | make_render_pipeline
  | add_subpass
  | set_render_pipeline
  | request_stats
  | create_gui
  deriving DecidableEq, Repr

/-- The statements of `prepare` after the guard on the parent, in source order. -/
def prepareBody : List PrepareStep :=
  [ .load_scene, .add_free_camera, .cast_camera, .vert_shader, .frag_shader,
    .make_forward_subpass, .make_render_pipeline, .add_subpass, .set_render_pipeline,
    .request_stats, .create_gui ]

/-- How a call of `prepare` ends: with a return value, or by an exception that one of the
framework calls raised. -/
inductive PrepareOutcome where
  | returned (value : Bool)
  | raised (step : PrepareStep)
  deriving DecidableEq, Repr

/-- Runs the steps in order; a step that raises ends the run and is not counted as
performed. -/
def runPrepareSteps (raises : PrepareStep → Bool) :
    List PrepareStep → List PrepareStep → PrepareOutcome × List PrepareStep
  | [], done => (.returned true, done)
  | step :: rest, done =>
      if raises step then (.raised step, done)
      else runPrepareSteps raises rest (done ++ [step])

/-- The method `DescriptorManagement::prepare`: the result of `VulkanSample::prepare` is an
input, as is which framework call raises; the outcome comes with the steps performed. -/
def prepare (parent_prepare : Bool) (raises : PrepareStep → Bool) :
    PrepareOutcome × List PrepareStep :=
  if !parent_prepare then (.returned false, [])
  else runPrepareSteps raises prepareBody []

/-- The five setup steps of `prepare` that matter to a caller. -/
def setupSteps : List PrepareStep :=
  [ .load_scene, .add_free_camera, .set_render_pipeline, .request_stats, .create_gui ]

/-! ## `DescriptorManagement::draw_gui` -/

/-- A set of radio buttons: heading, option labels and the selected value. -/
structure RadioButtonGroup where
  description : String
  options : List String
  value : Int
  deriving DecidableEq, Repr

/-- The ImGui calls made by the body passed to `show_options_window`. -/
inductive ImGuiCall where
  | PushID (id : Nat)
  | Text (description : String)
  | SameLine
  | RadioButton (label : String) (v_button : Nat)
  | PopID
  deriving DecidableEq, Repr

/-- Width of `size_t` arithmetic. -/
def SIZE_MAX_PLUS_ONE : Nat := 2 ^ 64

/-- The inner loop over the options of one group, from index `j` on; `size` is
`radio_button->options.size()` and `size - 1` is taken in `size_t`. -/
def optionCalls (to_u32 : Nat → Nat) (size : Nat) : Nat → List String → List ImGuiCall
  | _, [] => []
  | j, label :: rest =>
      [ImGuiCall.RadioButton label (to_u32 j)]
        ++ (if j < (size + SIZE_MAX_PLUS_ONE - 1) % SIZE_MAX_PLUS_ONE then [ImGuiCall.SameLine]
            else [])
        ++ optionCalls to_u32 size (j + 1) rest

/-- The outer loop over the option sets, from index `i` on. -/
def bodyCalls (to_u32 : Nat → Nat) (aspect : ℚ) : Nat → List RadioButtonGroup → List ImGuiCall
  | _, [] => []
  | i, radio_button :: rest =>
      [ImGuiCall.PushID (to_u32 i), ImGuiCall.Text radio_button.description]
        ++ (if aspect > 1 then [ImGuiCall.SameLine] else [])
        ++ optionCalls to_u32 radio_button.options.length 0 radio_button.options
        ++ [ImGuiCall.PopID]
        ++ bodyCalls to_u32 aspect (i + 1) rest

/-- What `draw_gui` hands to `show_options_window`: the calls of the body and the line
count. -/
structure OptionsWindow where
  body : List ImGuiCall
  lines : Nat
  deriving DecidableEq, Repr

/-- The method `DescriptorManagement::draw_gui`.  The camera aspect is an exact rational and
the conversion `vkb::to_u32`, which the sample file does not define, is an argument. -/
def draw_gui (to_u32 : Nat → Nat) (aspect : ℚ) (radio_buttons : List RadioButtonGroup) :
    OptionsWindow :=
  let lines := radio_buttons.length
  let lines := if aspect < 1 then (lines * 2) % SIZE_MAX_PLUS_ONE else lines
  { body := bodyCalls to_u32 aspect 0 radio_buttons, lines := to_u32 lines }

/-- Number of headings that are directly followed by `SameLine`, that is, of option sets
whose options follow the heading on the same line. -/
def headingsWithSameLine : List ImGuiCall → Nat
  | ImGuiCall.Text _ :: ImGuiCall.SameLine :: rest => headingsWithSameLine rest + 1
  | _ :: rest => headingsWithSameLine rest
  | [] => 0

/-- Number of headings in a list of calls. -/
def headings : List ImGuiCall → Nat
  | ImGuiCall.Text _ :: rest => headings rest + 1
  | _ :: rest => headings rest
  | [] => 0

/-- The conversion to `uint32_t` as a plain cast. -/
def static_cast_u32 (n : Nat) : Nat := n % 2 ^ 32

/-- Two option sets of two options each. -/
def twoOptionSets : List RadioButtonGroup :=
  [ { description := "Descriptor set caching", options := ["Disabled", "Enabled"], value := 0 },
    { description := "Buffer allocation", options := ["One", "Multiple"], value := 0 } ]

/-! ## Buffer arena -/

/-- Modelled from the spec: error kinds of the buffer arena (the arena lives in the framework,
outside the sample file). -/
inductive ArenaError where
  | OutOfArenaSpace
  deriving DecidableEq, Repr

/-- Modelled from the spec: a Memory Block, a contiguous region with a fixed capacity, a
current write offset and an owning frame slot index. -/
structure MemoryBlock where
  capacity : Nat
  offset : Nat
  frame_slot : Nat
  deriving DecidableEq, Repr

/-- Modelled from the spec: a Buffer Allocation, the byte range handed to a caller with the
alignment it asked for; the block is named by the frame slot that owns it. -/
structure BufferAllocation where
  frame_slot : Nat
  offset : Nat
  length : Nat
  alignment : Nat
  deriving DecidableEq, Repr

/-- Modelled from the spec: the offset rounded up to the alignment. -/
def alignUp (offset alignment : Nat) : Nat :=
  (offset + alignment - 1) / alignment * alignment

/-- Modelled from the spec: `allocate(size, alignment)` of the Buffer Arena on one block.  It
rounds the current offset up to `alignment`, reserves `size` bytes and advances the offset,
and fails with `OutOfArenaSpace` if the request would exceed the capacity of the block.  The
block after the call is returned next to the result. -/
def MemoryBlock.allocate (b : MemoryBlock) (size alignment : Nat) :
    Except ArenaError BufferAllocation × MemoryBlock :=
  let aligned := alignUp b.offset alignment
  if aligned + size ≤ b.capacity then
    (.ok { frame_slot := b.frame_slot, offset := aligned, length := size,
           alignment := alignment },
     { b with offset := aligned + size })
  else
    (.error .OutOfArenaSpace, b)

/-- A sequence of `allocate` calls, each a pair of size and alignment, on one block, as
MultipleAllocationsPerBuffer sends them to a shared block: the results in order and the block
at the end.  (Which block serves a request when there are several, and the dedicated blocks
of OneAllocationPerBuffer, are outside this model.) -/
def MemoryBlock.allocateAll :
    MemoryBlock → List (Nat × Nat) → List (Except ArenaError BufferAllocation) × MemoryBlock
  | b, [] => ([], b)
  | b, request :: rest =>
      let r := b.allocate request.1 request.2
      let rs := MemoryBlock.allocateAll r.2 rest
      (r.1 :: rs.1, rs.2)

/-- The allocations among a list of results. -/
def granted : List (Except ArenaError BufferAllocation) → List BufferAllocation
  | [] => []
  | .ok a :: rest => a :: granted rest
  | .error _ :: rest => granted rest

/-- The bytes of an allocation. -/
def BufferAllocation.bytes (a : BufferAllocation) : Finset Nat :=
  Finset.Ico a.offset (a.offset + a.length)

/-- The block of the scenario: capacity 256, nothing allocated yet. -/
def scenarioBlock : MemoryBlock :=
  { capacity := 256, offset := 0, frame_slot := 0 }

/-! ## Descriptor cache -/

/-- Modelled from the spec: the kinds of resource a binding can name. -/
inductive ResourceKind where
  | Buffer
  | Image
  | Sampler
  deriving DecidableEq, Repr

/-- Modelled from the spec: one tuple of a Binding Signature: binding index, resource kind,
resource identity and resource version. -/
structure Binding where
  binding : Nat
  kind : ResourceKind
  identity : Nat
  version : Nat
  deriving DecidableEq, Repr

/-- Modelled from the spec: a Binding Signature, the layout identity and the ordered list of
bindings; two signatures are equal iff all components are equal. -/
structure BindingSignature where
  layout : Nat
  bindings : List Binding
  deriving DecidableEq, Repr

/-- Modelled from the spec: a Descriptor Set Entry. -/
structure DescriptorSetEntry where
  signature : BindingSignature
  handle : Nat
  last_used : Nat
  deriving DecidableEq, Repr

/-- Modelled from the spec: error kinds of the descriptor cache. -/
inductive CacheError where
  | DescriptorPoolExhausted
  deriving DecidableEq, Repr

/-- Modelled from the spec: the descriptor cache of one frame slot within one validity
window: its entries, the capacity of the descriptor pool and the number of sets built from
the pool so far. -/
structure DescriptorCache where
  entries : List DescriptorSetEntry
  pool_capacity : Nat
  constructed : Nat
  deriving DecidableEq, Repr

/-- A cache with no entry and an untouched pool. -/
def DescriptorCache.empty (pool_capacity : Nat) : DescriptorCache :=
  { entries := [], pool_capacity := pool_capacity, constructed := 0 }

/-- Modelled from the spec: construction of a new descriptor set.  The pool hands out the
next handle, or reports `DescriptorPoolExhausted`. -/
def DescriptorCache.build (c : DescriptorCache) : Except CacheError (Nat × DescriptorCache) :=
  if c.constructed < c.pool_capacity then
    .ok (c.constructed, { c with constructed := c.constructed + 1 })
  else
    .error .DescriptorPoolExhausted

/-- Modelled from the spec: lookup by exact signature content. -/
def DescriptorCache.lookup (c : DescriptorCache) (signature : BindingSignature) :
    Option DescriptorSetEntry :=
  c.entries.find? (fun e => decide (e.signature = signature))

/-- Modelled from the spec: a hit updates the last-used marker of the entry. -/
def DescriptorCache.touch (c : DescriptorCache) (signature : BindingSignature)
    (frame_counter : Nat) : DescriptorCache :=
  { c with entries := c.entries.map (fun e =>
      if e.signature = signature then { e with last_used := frame_counter } else e) }

/-- Modelled from the spec: `get_or_create(signature)`.  Under CreateDirectly every request
builds and returns a new descriptor set, with no lookup and no storage.  Under StoreInCache a
hit returns the existing handle and updates its last-used marker; a miss constructs a new
descriptor set, inserts it keyed by the signature and returns it. -/
def get_or_create (strategy : DescriptorManagementStrategy) (frame_counter : Nat)
    (c : DescriptorCache) (signature : BindingSignature) :
    Except CacheError (Nat × DescriptorCache) :=
  match strategy with
  | .CreateDirectly => c.build
  | .StoreInCache =>
      match c.lookup signature with
      | some e => .ok (e.handle, c.touch signature frame_counter)
      | none =>
          match c.build with
          | .ok (h, c1) =>
              .ok (h, { c1 with entries :=
                { signature := signature, handle := h, last_used := frame_counter }
                  :: c1.entries })
          | .error err => .error err

/-- A run of requests, each a frame counter and a signature; a request that fails leaves the
cache as it was. -/
def requestAll (strategy : DescriptorManagementStrategy) :
    DescriptorCache → List (Nat × BindingSignature) → DescriptorCache
  | c, [] => c
  | c, request :: rest =>
      match get_or_create strategy request.1 c request.2 with
      | .ok (_, c1) => requestAll strategy c1 rest
      | .error _ => requestAll strategy c rest

/-- Well-formed caches: every stored handle came from the pool and no two entries share a
handle. -/
def DescriptorCache.WF (c : DescriptorCache) : Prop :=
  (∀ e ∈ c.entries, e.handle < c.constructed) ∧
  c.entries.Pairwise (fun e1 e2 => e1.handle ≠ e2.handle)

instance (c : DescriptorCache) : Decidable c.WF := by
  unfold DescriptorCache.WF
  infer_instance

/-- The signature of the scenario with resource version `v`. -/
def scenarioSignature (v : Nat) : BindingSignature :=
  { layout := 0, bindings := [{ binding := 0, kind := .Buffer, identity := 1, version := v }] }

/-! ## Concrete inputs -/

/-- An environment whose GUI step selects caching value 2 and allocation value -3, whose
`begin` leaves the strategies of the slot alone, and whose `draw` sends two requests. -/
def guiEnv : Env :=
  { external := fun st v =>
      if st = .update_gui then { descriptor_caching := 2, buffer_allocation := -3 } else v,
    begin_frame := fun f => f,
    draw_requests := [.allocate_buffer, .get_descriptor_set] }

/-- A slot that was submitted in an earlier cycle, with both options at 0. -/
def recycledState : UpdateState :=
  { values := { descriptor_caching := 0, buffer_allocation := 0 },
    buffer_alloc_strategy := none,
    descriptor_management_strategy := none,
    frame := { state := .Submitted,
               buffer_allocation_strategy := .MultipleAllocationsPerBuffer,
               descriptor_management_strategy := .StoreInCache },
    requests := [] }

/-- A slot acquired for the first time, with OneAllocationPerBuffer and CreateDirectly on it
and both options at 0. -/
def freshState : UpdateState :=
  { values := { descriptor_caching := 0, buffer_allocation := 0 },
    buffer_alloc_strategy := none,
    descriptor_management_strategy := none,
    frame := { state := .Idle,
               buffer_allocation_strategy := .OneAllocationPerBuffer,
               descriptor_management_strategy := .CreateDirectly },
    requests := [] }

/-- The call `draw` raises after its first resource request. -/
def drawRaises : Faults :=
  { raises := fun st => decide (st = .draw), draw_sent := 1 }

/-- The call `render_context.begin()` raises. -/
def beginRaises : Faults :=
  { raises := fun st => decide (st = .render_context_begin), draw_sent := 0 }

/-! ## Lemmas on `update` -/

theorem issueRequest_values (s : UpdateState) (r : ResourceRequest) :
    (issueRequest s r).values = s.values ∧
    (issueRequest s r).buffer_alloc_strategy = s.buffer_alloc_strategy ∧
    (issueRequest s r).descriptor_management_strategy = s.descriptor_management_strategy ∧
    (issueRequest s r).frame.buffer_allocation_strategy = s.frame.buffer_allocation_strategy ∧
    (issueRequest s r).frame.descriptor_management_strategy
      = s.frame.descriptor_management_strategy := by
  unfold issueRequest RenderFrame.request
  cases h : s.frame.state <;> simp

theorem foldl_issueRequest_keeps (rs : List ResourceRequest) (s : UpdateState) :
    (rs.foldl issueRequest s).values = s.values ∧
    (rs.foldl issueRequest s).buffer_alloc_strategy = s.buffer_alloc_strategy ∧
    (rs.foldl issueRequest s).descriptor_management_strategy = s.descriptor_management_strategy ∧
    (rs.foldl issueRequest s).frame.buffer_allocation_strategy
      = s.frame.buffer_allocation_strategy ∧
    (rs.foldl issueRequest s).frame.descriptor_management_strategy
      = s.frame.descriptor_management_strategy := by
  induction rs generalizing s with
  | nil => simp
  | cons r rs ih =>
    have h1 := issueRequest_values s r
    have h2 := ih (issueRequest s r)
    simp only [List.foldl_cons]
    refine ⟨h2.1.trans h1.1, h2.2.1.trans h1.2.1, h2.2.2.1.trans h1.2.2.1,
      h2.2.2.2.1.trans h1.2.2.2.1, h2.2.2.2.2.trans h1.2.2.2.2⟩

theorem exec_keeps_buffer_strategy (env : Env) (st : Stmt) (s : UpdateState)
    (h1 : st ≠ .set_buffer_allocation_strategy) (h2 : st ≠ .render_context_begin) :
    (exec env st s).frame.buffer_allocation_strategy = s.frame.buffer_allocation_strategy := by
  cases st <;> simp [exec, callExternal, drawFrame, RenderFrame.set_descriptor_management_strategy] at h1 h2 ⊢
  · cases s.descriptor_management_strategy <;> simp
  · exact (foldl_issueRequest_keeps _ _).2.2.2.1

theorem exec_keeps_descriptor_strategy (env : Env) (st : Stmt) (s : UpdateState)
    (h1 : st ≠ .set_descriptor_management_strategy) (h2 : st ≠ .render_context_begin) :
    (exec env st s).frame.descriptor_management_strategy
      = s.frame.descriptor_management_strategy := by
  cases st <;> simp [exec, callExternal, drawFrame, RenderFrame.set_buffer_allocation_strategy] at h1 h2 ⊢
  · cases s.buffer_alloc_strategy <;> simp
  · exact (foldl_issueRequest_keeps _ _).2.2.2.2

theorem stateAfter_succ (env : Env) (s : UpdateState) (k : Nat) (st : Stmt)
    (h : updateBody[k]? = some st) :
    stateAfter env s (k + 1) = exec env st (stateAfter env s k) := by
  unfold stateAfter run
  have : updateBody.take (k + 1) = updateBody.take k ++ [st] := by
    rw [List.take_succ, h]; rfl
  rw [this, List.foldl_append]; rfl


theorem buffer_strategy_after_set (env : Env) (s : UpdateState) :
    (stateAfter env s 8).frame.buffer_allocation_strategy
      = selectBufferAllocStrategy (stateAfter env s 6).values.buffer_allocation := by
  rw [stateAfter_succ env s 7 .set_buffer_allocation_strategy rfl,
    stateAfter_succ env s 6 .select_buffer_alloc_strategy rfl]
  simp [exec, RenderFrame.set_buffer_allocation_strategy]

theorem descriptor_strategy_after_set (env : Env) (s : UpdateState) :
    (stateAfter env s 10).frame.descriptor_management_strategy
      = selectDescriptorManagementStrategy (stateAfter env s 8).values.descriptor_caching := by
  rw [stateAfter_succ env s 9 .set_descriptor_management_strategy rfl,
    stateAfter_succ env s 8 .select_descriptor_management_strategy rfl]
  simp [exec, RenderFrame.set_descriptor_management_strategy]

theorem buffer_strategy_step (env : Env) (s : UpdateState) (k : Nat) (h8 : 8 ≤ k)
    (h16 : k < 16) :
    (stateAfter env s (k + 1)).frame.buffer_allocation_strategy
      = (stateAfter env s k).frame.buffer_allocation_strategy := by
  interval_cases k <;>
    (rw [stateAfter_succ env s _ _ rfl]
     exact exec_keeps_buffer_strategy _ _ _ (by decide) (by decide))

theorem descriptor_strategy_step (env : Env) (s : UpdateState) (k : Nat) (h10 : 10 ≤ k)
    (h16 : k < 16) :
    (stateAfter env s (k + 1)).frame.descriptor_management_strategy
      = (stateAfter env s k).frame.descriptor_management_strategy := by
  interval_cases k <;>
    (rw [stateAfter_succ env s _ _ rfl]
     exact exec_keeps_descriptor_strategy _ _ _ (by decide) (by decide))

theorem buffer_strategy_kept (env : Env) (s : UpdateState) (k : Nat) (h8 : 8 ≤ k)
    (h16 : k ≤ 16) :
    (stateAfter env s k).frame.buffer_allocation_strategy
      = (stateAfter env s 8).frame.buffer_allocation_strategy := by
  induction k, h8 using Nat.le_induction with
  | base => rfl
  | succ k hk ih => rw [buffer_strategy_step env s k hk (by omega), ih (by omega)]

theorem descriptor_strategy_kept (env : Env) (s : UpdateState) (k : Nat) (h10 : 10 ≤ k)
    (h16 : k ≤ 16) :
    (stateAfter env s k).frame.descriptor_management_strategy
      = (stateAfter env s 10).frame.descriptor_management_strategy := by
  induction k, h10 using Nat.le_induction with
  | base => rfl
  | succ k hk ih => rw [descriptor_strategy_step env s k hk (by omega), ih (by omega)]

theorem update_eq_stateAfter (env : Env) (s : UpdateState) :
    update env s = stateAfter env s 16 := by
  simp [update, stateAfter, updateBody]

theorem exec_quiet_values (bf : RenderFrame → RenderFrame) (dr : List ResourceRequest)
    (st : Stmt) (t : UpdateState) : (exec (quietEnv bf dr) st t).values = t.values := by
  cases st <;> simp [exec, callExternal, drawFrame, quietEnv]
  · cases t.buffer_alloc_strategy <;> simp
  · cases t.descriptor_management_strategy <;> simp
  · exact (foldl_issueRequest_keeps _ _).1

theorem run_quiet_values (bf : RenderFrame → RenderFrame) (dr : List ResourceRequest)
    (stmts : List Stmt) (s : UpdateState) : (run (quietEnv bf dr) stmts s).values = s.values := by
  induction stmts generalizing s with
  | nil => rfl
  | cons st rest ih =>
    have h := ih (exec (quietEnv bf dr) st s)
    rw [exec_quiet_values] at h
    simpa [run] using h


theorem alignUp_dvd (offset alignment : Nat) : alignment ∣ alignUp offset alignment :=
  Dvd.intro_left _ rfl

theorem alignUp_ge (offset alignment : Nat) (h : 0 < alignment) :
    offset ≤ alignUp offset alignment := by
  unfold alignUp
  have h1 := Nat.div_add_mod (offset + alignment - 1) alignment
  have h2 := Nat.mod_lt (offset + alignment - 1) h
  have h3 : (offset + alignment - 1) / alignment * alignment
      = alignment * ((offset + alignment - 1) / alignment) := Nat.mul_comm _ _
  omega

theorem alignUp_lt (offset alignment : Nat) (h : 0 < alignment) :
    alignUp offset alignment < offset + alignment := by
  unfold alignUp
  have h1 := Nat.div_add_mod (offset + alignment - 1) alignment
  have h3 : (offset + alignment - 1) / alignment * alignment
      = alignment * ((offset + alignment - 1) / alignment) := Nat.mul_comm _ _
  omega

theorem alignUp_least (offset alignment m : Nat) (h : 0 < alignment) (hm : alignment ∣ m)
    (hle : offset ≤ m) : alignUp offset alignment ≤ m := by
  obtain ⟨q, rfl⟩ := hm
  unfold alignUp
  rw [Nat.mul_comm]
  apply Nat.mul_le_mul_left
  rw [Nat.div_le_iff_le_mul_add_pred h]
  have : alignment * q = alignment * q := rfl
  omega

theorem allocate_ok (b : MemoryBlock) (size alignment : Nat)
    (h : alignUp b.offset alignment + size ≤ b.capacity) :
    b.allocate size alignment
      = (.ok { frame_slot := b.frame_slot, offset := alignUp b.offset alignment,
               length := size, alignment := alignment },
         { b with offset := alignUp b.offset alignment + size }) := by
  simp [MemoryBlock.allocate, h]

theorem allocate_error (b : MemoryBlock) (size alignment : Nat)
    (h : b.capacity < alignUp b.offset alignment + size) :
    b.allocate size alignment = (.error .OutOfArenaSpace, b) := by
  simp [MemoryBlock.allocate, Nat.not_le.2 h]

theorem allocateAll_ordered (reqs : List (Nat × Nat)) (b : MemoryBlock)
    (hal : ∀ r ∈ reqs, 0 < r.2) :
    (b.allocateAll reqs).2.capacity = b.capacity ∧
    b.offset ≤ (b.allocateAll reqs).2.offset ∧
    (b.offset ≤ b.capacity → (b.allocateAll reqs).2.offset ≤ b.capacity) ∧
    (∀ a ∈ granted (b.allocateAll reqs).1,
      b.offset ≤ a.offset ∧ a.offset + a.length ≤ (b.allocateAll reqs).2.offset) ∧
    (granted (b.allocateAll reqs).1).Pairwise (fun a1 a2 => a1.offset + a1.length ≤ a2.offset) := by
  induction reqs generalizing b with
  | nil => simp [MemoryBlock.allocateAll, granted]
  | cons r rest ih =>
    have hr : 0 < r.2 := hal r (List.mem_cons_self _ _)
    have hrest : ∀ x ∈ rest, 0 < x.2 := fun x hx => hal x (List.mem_cons_of_mem _ hx)
    have hge := alignUp_ge b.offset r.2 hr
    by_cases hfit : alignUp b.offset r.2 + r.1 ≤ b.capacity
    · have hstep := allocate_ok b r.1 r.2 hfit
      obtain ⟨i1, i2, i3, i4, i5⟩ := ih { b with offset := alignUp b.offset r.2 + r.1 } hrest
      simp only [MemoryBlock.allocateAll, hstep, granted]
      simp only at i1 i2 i3 i4 i5
      refine ⟨i1, by omega, fun _ => i3 hfit, ?_, ?_⟩
      · intro a ha
        rcases List.mem_cons.1 ha with rfl | ha
        · exact ⟨hge, by simpa using i2⟩
        · have := i4 a ha
          exact ⟨by omega, this.2⟩
      · refine List.pairwise_cons.2 ⟨?_, i5⟩
        intro a ha
        exact (i4 a ha).1
    · have hstep := allocate_error b r.1 r.2 (Nat.not_le.1 hfit)
      obtain ⟨i1, i2, i3, i4, i5⟩ := ih b hrest
      simp only [MemoryBlock.allocateAll, hstep, granted]
      exact ⟨i1, i2, i3, i4, i5⟩

theorem bytes_disjoint (a1 a2 : BufferAllocation) (h : a1.offset + a1.length ≤ a2.offset) :
    Disjoint a1.bytes a2.bytes := by
  rw [Finset.disjoint_left]
  intro x h1 h2
  simp only [BufferAllocation.bytes, Finset.mem_Ico] at h1 h2
  omega

/-! ## Lemmas on the descriptor cache -/

theorem build_ok (c : DescriptorCache) (h : Nat) (c1 : DescriptorCache)
    (hb : c.build = .ok (h, c1)) :
    c.constructed < c.pool_capacity ∧ h = c.constructed ∧
      c1 = { c with constructed := c.constructed + 1 } := by
  unfold DescriptorCache.build at hb
  split at hb
  · rename_i hlt
    simp only [Except.ok.injEq, Prod.mk.injEq] at hb
    exact ⟨hlt, hb.1.symm, hb.2.symm⟩
  · cases hb

theorem lookup_some (c : DescriptorCache) (sig : BindingSignature) (e : DescriptorSetEntry)
    (h : c.lookup sig = some e) : e ∈ c.entries ∧ e.signature = sig := by
  unfold DescriptorCache.lookup at h
  exact ⟨List.mem_of_find?_eq_some h, by simpa using List.find?_some h⟩

theorem lookup_touch (c : DescriptorCache) (sig other : BindingSignature) (frame : Nat) :
    ((c.touch other frame).lookup sig).map (fun e => e.handle)
      = (c.lookup sig).map (fun e => e.handle) := by
  unfold DescriptorCache.lookup DescriptorCache.touch
  simp only
  generalize hf : (fun e : DescriptorSetEntry =>
    if e.signature = other then { e with last_used := frame } else e) = f
  have hsig : ∀ e, (f e).signature = e.signature := by
    intro e; subst hf; by_cases h : e.signature = other <;> simp [h]
  have hhandle : ∀ e, (f e).handle = e.handle := by
    intro e; subst hf; by_cases h : e.signature = other <;> simp [h]
  induction c.entries with
  | nil => rfl
  | cons e rest ih =>
    rw [List.map_cons, List.find?_cons, List.find?_cons, hsig]
    by_cases h2 : e.signature = sig
    · simp only [h2, decide_True, Option.map_some', hhandle]
    · simp only [h2, decide_False]
      exact ih

theorem touch_WF (c : DescriptorCache) (other : BindingSignature) (frame : Nat) (h : c.WF) :
    (c.touch other frame).WF := by
  unfold DescriptorCache.WF DescriptorCache.touch
  simp only
  generalize hf : (fun e : DescriptorSetEntry =>
    if e.signature = other then { e with last_used := frame } else e) = f
  have hhandle : ∀ e, (f e).handle = e.handle := by
    intro e; subst hf; by_cases h : e.signature = other <;> simp [h]
  constructor
  · intro e he
    obtain ⟨e0, he0, rfl⟩ := List.mem_map.1 he
    rw [hhandle]
    exact h.1 e0 he0
  · rw [List.pairwise_map]
    exact h.2.imp (fun hne => by rw [hhandle, hhandle]; exact hne)

theorem store_hit (c : DescriptorCache) (sig : BindingSignature) (frame : Nat)
    (e : DescriptorSetEntry) (h : c.lookup sig = some e) :
    get_or_create .StoreInCache frame c sig = .ok (e.handle, c.touch sig frame) := by
  simp [get_or_create, h]

theorem store_miss (c : DescriptorCache) (sig : BindingSignature) (frame : Nat)
    (h : c.lookup sig = none) (hd : Nat) (c1 : DescriptorCache)
    (hg : get_or_create .StoreInCache frame c sig = .ok (hd, c1)) :
    c.constructed < c.pool_capacity ∧ hd = c.constructed ∧
      c1 = { c with constructed := c.constructed + 1,
                    entries := { signature := sig, handle := c.constructed, last_used := frame }
                      :: c.entries } := by
  simp only [get_or_create, h] at hg
  cases hb : c.build with
  | error err => rw [hb] at hg; cases hg
  | ok r =>
    obtain ⟨h0, cb⟩ := r
    rw [hb] at hg
    obtain ⟨b1, b2, b3⟩ := build_ok c h0 cb hb
    simp only [Except.ok.injEq, Prod.mk.injEq] at hg
    subst b2 b3
    exact ⟨b1, hg.1.symm, hg.2.symm⟩

theorem get_or_create_WF (strategy : DescriptorManagementStrategy) (frame : Nat)
    (c : DescriptorCache) (sig : BindingSignature) (hd : Nat) (c1 : DescriptorCache)
    (hwf : c.WF) (hg : get_or_create strategy frame c sig = .ok (hd, c1)) : c1.WF := by
  cases strategy with
  | CreateDirectly =>
    obtain ⟨_, _, rfl⟩ := build_ok c hd c1 hg
    exact ⟨fun e he => Nat.lt_succ_of_lt (hwf.1 e he), hwf.2⟩
  | StoreInCache =>
    cases hl : c.lookup sig with
    | some e =>
      rw [store_hit c sig frame e hl] at hg
      simp only [Except.ok.injEq, Prod.mk.injEq] at hg
      rw [← hg.2]
      exact touch_WF c sig frame hwf
    | none =>
      obtain ⟨_, _, rfl⟩ := store_miss c sig frame hl hd c1 hg
      constructor
      · intro e he
        rcases List.mem_cons.1 he with rfl | he
        · exact Nat.lt_succ_self _
        · exact Nat.lt_succ_of_lt (hwf.1 e he)
      · refine List.pairwise_cons.2 ⟨?_, hwf.2⟩
        intro e he
        exact Nat.ne_of_gt (hwf.1 e he)

theorem requestAll_WF (strategy : DescriptorManagementStrategy)
    (reqs : List (Nat × BindingSignature)) (c : DescriptorCache) (hwf : c.WF) :
    (requestAll strategy c reqs).WF := by
  induction reqs generalizing c with
  | nil => exact hwf
  | cons r rest ih =>
    unfold requestAll
    cases hg : get_or_create strategy r.1 c r.2 with
    | error err => exact ih c hwf
    | ok res => exact ih res.2 (get_or_create_WF strategy r.1 c r.2 res.1 res.2 hwf hg)

theorem stored_after_request (frame : Nat) (c : DescriptorCache) (sig : BindingSignature)
    (hd : Nat) (c1 : DescriptorCache)
    (hg : get_or_create .StoreInCache frame c sig = .ok (hd, c1)) :
    (c1.lookup sig).map (fun e => e.handle) = some hd := by
  cases hl : c.lookup sig with
  | some e =>
    rw [store_hit c sig frame e hl] at hg
    simp only [Except.ok.injEq, Prod.mk.injEq] at hg
    rw [← hg.2, lookup_touch, hl, ← hg.1]
    rfl
  | none =>
    obtain ⟨_, rfl, rfl⟩ := store_miss c sig frame hl hd c1 hg
    simp [DescriptorCache.lookup]

theorem stored_kept (frame : Nat) (c : DescriptorCache) (sig other : BindingSignature)
    (hd hd2 : Nat) (c1 : DescriptorCache)
    (hs : (c.lookup sig).map (fun e => e.handle) = some hd)
    (hg : get_or_create .StoreInCache frame c other = .ok (hd2, c1)) :
    (c1.lookup sig).map (fun e => e.handle) = some hd := by
  cases hl : c.lookup other with
  | some e =>
    rw [store_hit c other frame e hl] at hg
    simp only [Except.ok.injEq, Prod.mk.injEq] at hg
    rw [← hg.2, lookup_touch, hs]
  | none =>
    obtain ⟨_, _, rfl⟩ := store_miss c other frame hl hd2 c1 hg
    have hne : ¬ other = sig := by
      intro heq
      rw [heq] at hl
      rw [hl] at hs
      cases hs
    simpa [DescriptorCache.lookup, hne] using hs

theorem requestAll_stored_kept (reqs : List (Nat × BindingSignature)) (c : DescriptorCache)
    (sig : BindingSignature) (hd : Nat)
    (hs : (c.lookup sig).map (fun e => e.handle) = some hd) :
    ((requestAll .StoreInCache c reqs).lookup sig).map (fun e => e.handle) = some hd := by
  induction reqs generalizing c with
  | nil => exact hs
  | cons r rest ih =>
    unfold requestAll
    cases hg : get_or_create .StoreInCache r.1 c r.2 with
    | error err => exact ih c hs
    | ok res => exact ih res.2 (stored_kept r.1 c sig r.2 hd res.1 res.2 hs hg)

theorem handle_decides_signature (c : DescriptorCache) (hwf : c.WF) (s1 s2 : BindingSignature)
    (h1 h2 : Nat) (hs1 : (c.lookup s1).map (fun e => e.handle) = some h1) (frame : Nat)
    (c2 : DescriptorCache) (hg : get_or_create .StoreInCache frame c s2 = .ok (h2, c2)) :
    (h1 = h2 ↔ s1 = s2) ∧ (s1 = s2 → c2.constructed = c.constructed) := by
  cases hl1 : c.lookup s1 with
  | none => rw [hl1] at hs1; cases hs1
  | some e1 =>
    rw [hl1] at hs1
    simp only [Option.map_some', Option.some.injEq] at hs1
    obtain ⟨hm1, hsig1⟩ := lookup_some c s1 e1 hl1
    cases hl2 : c.lookup s2 with
    | some e2 =>
      obtain ⟨hm2, hsig2⟩ := lookup_some c s2 e2 hl2
      rw [store_hit c s2 frame e2 hl2] at hg
      simp only [Except.ok.injEq, Prod.mk.injEq] at hg
      refine ⟨⟨fun heq => ?_, fun heq => ?_⟩, fun _ => by rw [← hg.2]; rfl⟩
      · by_contra hne
        have hne12 : e1 ≠ e2 := fun h => hne (by rw [← hsig1, ← hsig2, h])
        have hsym : Symmetric (fun a b : DescriptorSetEntry => a.handle ≠ b.handle) :=
          fun a b hab => Ne.symm hab
        exact hwf.2.forall hsym hm1 hm2 hne12 (by rw [hs1, hg.1, heq])
      · subst heq
        rw [hl1] at hl2
        simp only [Option.some.injEq] at hl2
        rw [← hs1, ← hg.1, hl2]
    | none =>
      obtain ⟨_, hh, _⟩ := store_miss c s2 frame hl2 h2 c2 hg
      have hlt := hwf.1 e1 hm1
      refine ⟨⟨fun heq => ?_, fun heq => ?_⟩, fun heq => ?_⟩
      · omega
      · subst heq; rw [hl1] at hl2; cases hl2
      · subst heq; rw [hl1] at hl2; cases hl2


/-! ## Claims on `update` -/

/-- C1: whatever integer `buffer_allocation.value` holds when line 83 of `update` reads it
(negative numbers and numbers above 1 included), the buffer allocation strategy that `update`
sets on the active frame is OneAllocationPerBuffer if the value is 0 and
MultipleAllocationsPerBuffer otherwise; it is the strategy of the frame when `update` returns,
and it is always one of these two. -/
theorem update_buffer_allocation_strategy (env : Env) (s : UpdateState) :
    (stateAfter env s 8).frame.buffer_allocation_strategy
        = (if (stateAfter env s 6).values.buffer_allocation = 0
            then BufferAllocationStrategy.OneAllocationPerBuffer
            else BufferAllocationStrategy.MultipleAllocationsPerBuffer) ∧
    (update env s).frame.buffer_allocation_strategy
        = (stateAfter env s 8).frame.buffer_allocation_strategy ∧
    ((update env s).frame.buffer_allocation_strategy
        = BufferAllocationStrategy.OneAllocationPerBuffer ∨
      (update env s).frame.buffer_allocation_strategy
        = BufferAllocationStrategy.MultipleAllocationsPerBuffer) ∧
    (∀ (v : Int) (bf : RenderFrame → RenderFrame) (dr : List ResourceRequest),
      (update (quietEnv bf dr)
          { s with values := { s.values with buffer_allocation := v } }).frame.buffer_allocation_strategy
        = (if v = 0 then BufferAllocationStrategy.OneAllocationPerBuffer
            else BufferAllocationStrategy.MultipleAllocationsPerBuffer)) := by
  have hset := buffer_strategy_after_set env s
  have hkeep : (update env s).frame.buffer_allocation_strategy
      = (stateAfter env s 8).frame.buffer_allocation_strategy := by
    rw [update_eq_stateAfter]
    exact buffer_strategy_kept env s 16 (by omega) (by omega)
  refine ⟨by rw [hset]; rfl, hkeep, ?_, ?_⟩
  · cases h : (update env s).frame.buffer_allocation_strategy <;> simp
  · intro v bf dr
    rw [update_eq_stateAfter, buffer_strategy_kept _ _ 16 (by omega) (by omega),
      buffer_strategy_after_set, stateAfter, run_quiet_values]
    rfl

/-- C2: whatever integer `descriptor_caching.value` holds when line 89 of `update` reads it,
the descriptor management strategy that `update` sets on the active frame is CreateDirectly
if the value is 0 and StoreInCache otherwise, and it is always one of these two.  Each of the
two strategies is determined by its own option value alone: with the other option at any
value, the result is the same. -/
theorem update_descriptor_management_strategy (env : Env) (s : UpdateState) :
    (stateAfter env s 10).frame.descriptor_management_strategy
        = (if (stateAfter env s 8).values.descriptor_caching = 0
            then DescriptorManagementStrategy.CreateDirectly
            else DescriptorManagementStrategy.StoreInCache) ∧
    (update env s).frame.descriptor_management_strategy
        = (stateAfter env s 10).frame.descriptor_management_strategy ∧
    ((update env s).frame.descriptor_management_strategy
        = DescriptorManagementStrategy.CreateDirectly ∨
      (update env s).frame.descriptor_management_strategy
        = DescriptorManagementStrategy.StoreInCache) ∧
    (∀ (d b : Int) (bf : RenderFrame → RenderFrame) (dr : List ResourceRequest),
      (update (quietEnv bf dr)
          { s with values := { descriptor_caching := d, buffer_allocation := b } }
          ).frame.descriptor_management_strategy
        = (if d = 0 then DescriptorManagementStrategy.CreateDirectly
            else DescriptorManagementStrategy.StoreInCache) ∧
      (update (quietEnv bf dr)
          { s with values := { descriptor_caching := d, buffer_allocation := b } }
          ).frame.buffer_allocation_strategy
        = (if b = 0 then BufferAllocationStrategy.OneAllocationPerBuffer
            else BufferAllocationStrategy.MultipleAllocationsPerBuffer)) := by
  have hset := descriptor_strategy_after_set env s
  have hkeep : (update env s).frame.descriptor_management_strategy
      = (stateAfter env s 10).frame.descriptor_management_strategy := by
    rw [update_eq_stateAfter]
    exact descriptor_strategy_kept env s 16 (by omega) (by omega)
  refine ⟨by rw [hset]; rfl, hkeep, ?_, ?_⟩
  · cases h : (update env s).frame.descriptor_management_strategy <;> simp
  · intro d b bf dr
    constructor
    · rw [update_eq_stateAfter, descriptor_strategy_kept _ _ 16 (by omega) (by omega),
        descriptor_strategy_after_set, stateAfter, run_quiet_values]
      rfl
    · rw [update_eq_stateAfter, buffer_strategy_kept _ _ 16 (by omega) (by omega),
        buffer_strategy_after_set, stateAfter, run_quiet_values]
      rfl

theorem frame_before_begin (env : Env) (s : UpdateState) :
    (stateAfter env s 4).frame = s.frame := by
  simp [stateAfter, run, updateBody, exec, callExternal]

theorem frame_after_begin (env : Env) (s : UpdateState) :
    (stateAfter env s 5).frame
      = { (env.begin_frame s.frame) with state := s.frame.state.onBegin } := by
  rw [stateAfter_succ env s 4 .render_context_begin rfl]
  simp [exec, callExternal, frame_before_begin]

/-- C5, as stated, fails.  With both options at 0 and a slot that still carries
MultipleAllocationsPerBuffer and StoreInCache, the frame has these two strategies when
`render_context.begin()` has returned, not the selected ones.  And whatever `begin` does to
the slot it acquires, some option value makes the strategy after `begin` differ from the
selected one, since `begin` is called without the option values. -/
theorem begin_takes_no_snapshot :
    ((stateAfter (quietEnv (fun f => f) []) recycledState 5).frame.buffer_allocation_strategy
        ≠ selectBufferAllocStrategy
            (stateAfter (quietEnv (fun f => f) []) recycledState 5).values.buffer_allocation ∧
      (stateAfter (quietEnv (fun f => f) []) recycledState 5).frame.descriptor_management_strategy
        ≠ selectDescriptorManagementStrategy
            (stateAfter (quietEnv (fun f => f) []) recycledState 5).values.descriptor_caching) ∧
    (∀ (bf : RenderFrame → RenderFrame) (dr : List ResourceRequest), ∃ s : UpdateState,
      (stateAfter (quietEnv bf dr) s 5).frame.buffer_allocation_strategy
        ≠ selectBufferAllocStrategy (stateAfter (quietEnv bf dr) s 5).values.buffer_allocation) := by
  refine ⟨by decide, ?_⟩
  intro bf dr
  cases hb : (bf recycledState.frame).buffer_allocation_strategy with
  | OneAllocationPerBuffer =>
    refine ⟨{ recycledState with values := { descriptor_caching := 0, buffer_allocation := 1 } }, ?_⟩
    rw [frame_after_begin, stateAfter, run_quiet_values]
    simp [quietEnv, hb, selectBufferAllocStrategy, recycledState] at hb ⊢
  | MultipleAllocationsPerBuffer =>
    refine ⟨recycledState, ?_⟩
    rw [frame_after_begin, stateAfter, run_quiet_values]
    simp [quietEnv, hb, selectBufferAllocStrategy, recycledState] at hb ⊢

/-- C5, amended: `render_context.begin()` is called without the option values, and the
strategies of the frame when it has returned are the ones `begin` leaves on the slot it
acquired.  The snapshot is taken after that: `update` reads the two values and sets both
strategies before `command_buffer->begin`, and once the second setter has returned the
strategies of the active frame are the ones selected by the values read, for every prior
state of the slot. -/
theorem update_snapshot_after_begin (env : Env) (s : UpdateState) :
    (stateAfter env s 5).frame
        = { (env.begin_frame s.frame) with state := s.frame.state.onBegin } ∧
    (updateBody.indexOf Stmt.render_context_begin
        < updateBody.indexOf Stmt.select_buffer_alloc_strategy ∧
      updateBody.indexOf Stmt.render_context_begin
        < updateBody.indexOf Stmt.select_descriptor_management_strategy ∧
      updateBody.indexOf Stmt.set_buffer_allocation_strategy
        < updateBody.indexOf Stmt.command_buffer_begin ∧
      updateBody.indexOf Stmt.set_descriptor_management_strategy
        < updateBody.indexOf Stmt.command_buffer_begin) ∧
    (stateAfter env s 10).frame.buffer_allocation_strategy
        = selectBufferAllocStrategy (stateAfter env s 6).values.buffer_allocation ∧
    (stateAfter env s 10).frame.descriptor_management_strategy
        = selectDescriptorManagementStrategy (stateAfter env s 8).values.descriptor_caching := by
  refine ⟨frame_after_begin env s, by decide, ?_, descriptor_strategy_after_set env s⟩
  rw [buffer_strategy_kept env s 10 (by omega) (by omega)]
  exact buffer_strategy_after_set env s

/-! ## Claims on the constructor, `prepare` and `draw_gui` -/

/-- C8: on a fresh configuration the constructor registers the two configurations 0 and 1;
configuration 0 sets `descriptor_caching.value` and `buffer_allocation.value` to 0 and
configuration 1 sets both to 1.  A frame updated under configuration 0 runs with
OneAllocationPerBuffer and CreateDirectly, one under configuration 1 with
MultipleAllocationsPerBuffer and StoreInCache, so no registered configuration yields a mixed
pair. -/
theorem construct_registers_two_configurations :
    (construct []).indices = [0, 1] ∧
    (construct []).settings 0
        = [{ handle := .descriptor_caching, value := 0 },
           { handle := .buffer_allocation, value := 0 }] ∧
    (construct []).settings 1
        = [{ handle := .descriptor_caching, value := 1 },
           { handle := .buffer_allocation, value := 1 }] ∧
    (∀ v : OptionValues,
      (construct []).apply 0 v = { descriptor_caching := 0, buffer_allocation := 0 } ∧
      (construct []).apply 1 v = { descriptor_caching := 1, buffer_allocation := 1 }) ∧
    (∀ (s : UpdateState) (bf : RenderFrame → RenderFrame) (dr : List ResourceRequest),
      ((update (quietEnv bf dr) { s with values := (construct []).apply 0 s.values }).frame.buffer_allocation_strategy
          = BufferAllocationStrategy.OneAllocationPerBuffer ∧
        (update (quietEnv bf dr) { s with values := (construct []).apply 0 s.values }).frame.descriptor_management_strategy
          = DescriptorManagementStrategy.CreateDirectly) ∧
      ((update (quietEnv bf dr) { s with values := (construct []).apply 1 s.values }).frame.buffer_allocation_strategy
          = BufferAllocationStrategy.MultipleAllocationsPerBuffer ∧
        (update (quietEnv bf dr) { s with values := (construct []).apply 1 s.values }).frame.descriptor_management_strategy
          = DescriptorManagementStrategy.StoreInCache)) ∧
    (∀ i ∈ (construct []).indices,
      ∀ (s : UpdateState) (bf : RenderFrame → RenderFrame) (dr : List ResourceRequest),
        ((update (quietEnv bf dr) { s with values := (construct []).apply i s.values }).frame.buffer_allocation_strategy
            = BufferAllocationStrategy.OneAllocationPerBuffer ↔
          (update (quietEnv bf dr) { s with values := (construct []).apply i s.values }).frame.descriptor_management_strategy
            = DescriptorManagementStrategy.CreateDirectly)) := by
  have happly : ∀ v : OptionValues,
      (construct []).apply 0 v = { descriptor_caching := 0, buffer_allocation := 0 } ∧
      (construct []).apply 1 v = { descriptor_caching := 1, buffer_allocation := 1 } := by
    intro v
    constructor <;> rfl
  have hrun : ∀ (s : UpdateState) (bf : RenderFrame → RenderFrame) (dr : List ResourceRequest),
      (update (quietEnv bf dr) s).frame.buffer_allocation_strategy
          = selectBufferAllocStrategy s.values.buffer_allocation ∧
        (update (quietEnv bf dr) s).frame.descriptor_management_strategy
          = selectDescriptorManagementStrategy s.values.descriptor_caching := by
    intro s bf dr
    rw [update_eq_stateAfter, buffer_strategy_kept _ _ 16 (by omega) (by omega),
      descriptor_strategy_kept _ _ 16 (by omega) (by omega), buffer_strategy_after_set,
      descriptor_strategy_after_set, stateAfter, stateAfter, run_quiet_values, run_quiet_values]
    exact ⟨rfl, rfl⟩
  refine ⟨by decide, by decide, by decide, happly, ?_, ?_⟩
  · intro s bf dr
    simp only [hrun, (happly s.values).1, (happly s.values).2]
    decide
  · intro i hi s bf dr
    have hi2 : i = 0 ∨ i = 1 := by
      have : i ∈ [0, 1] := hi
      simpa using this
    rcases hi2 with rfl | rfl
    · simp only [hrun, (happly s.values).1]; decide
    · simp only [hrun, (happly s.values).2]; decide

/-- Witness for C8: configuration 1 is registered, and a frame updated under it has both
second strategies. -/
theorem construct_registers_two_configurations_witness :
    (1 ∈ (construct []).indices) ∧
    ((update (quietEnv (fun f => f) [])
          { recycledState with values := (construct []).apply 1 recycledState.values }
        ).frame.buffer_allocation_strategy = BufferAllocationStrategy.OneAllocationPerBuffer ↔
      (update (quietEnv (fun f => f) [])
          { recycledState with values := (construct []).apply 1 recycledState.values }
        ).frame.descriptor_management_strategy = DescriptorManagementStrategy.CreateDirectly) :=
  ⟨by decide,
    construct_registers_two_configurations.2.2.2.2.2 1 (by decide) recycledState (fun f => f) []⟩

theorem runPrepareSteps_returned (raises : PrepareStep → Bool) (steps done : List PrepareStep) :
    (runPrepareSteps raises steps done).1 ≠ .returned false ∧
    ((runPrepareSteps raises steps done).1 = .returned true →
      (runPrepareSteps raises steps done).2 = done ++ steps) ∧
    ((∀ st ∈ steps, raises st = false) →
      (runPrepareSteps raises steps done).1 = .returned true) := by
  induction steps generalizing done with
  | nil => simp [runPrepareSteps]
  | cons st rest ih =>
    unfold runPrepareSteps
    by_cases h : raises st = true
    · simp [h]
    · have h2 := ih (done ++ [st])
      simp only [h, Bool.false_eq_true, if_false]
      refine ⟨h2.1, fun hr => by simpa using h2.2.1 hr, fun hall => h2.2.2 ?_⟩
      intro x hx
      exact hall x (List.mem_cons_of_mem _ hx)

/-- C9: `prepare` returns false exactly when `VulkanSample::prepare` returned false.  When it
returns false it has performed none of its steps; when it returns true it has performed all
of them in source order, among them scene load, camera attachment, render pipeline creation,
stats request and GUI creation in that order; and it does return true when the parent did
and no framework call raises. -/
theorem prepare_guarded_by_parent (parent_prepare : Bool) (raises : PrepareStep → Bool) :
    ((prepare parent_prepare raises).1 = PrepareOutcome.returned false ↔
      parent_prepare = false) ∧
    ((prepare parent_prepare raises).1 = PrepareOutcome.returned false →
      (prepare parent_prepare raises).2 = []) ∧
    ((prepare parent_prepare raises).1 = PrepareOutcome.returned true →
      (prepare parent_prepare raises).2 = prepareBody ∧
      setupSteps.Sublist (prepare parent_prepare raises).2) ∧
    (parent_prepare = true → (∀ st, raises st = false) →
      (prepare parent_prepare raises).1 = PrepareOutcome.returned true) := by
  have hrun := runPrepareSteps_returned raises prepareBody []
  cases parent_prepare with
  | false => simp [prepare]
  | true =>
    simp only [prepare, Bool.not_true, Bool.false_eq_true, if_false, List.nil_append] at hrun ⊢
    refine ⟨by simpa using hrun.1, fun h => absurd h hrun.1, fun h => ?_, fun _ hall =>
      hrun.2.2 (fun st _ => hall st)⟩
    rw [hrun.2.1 h]
    exact ⟨rfl, by decide⟩

/-- Witness for C9: the parent prepared and nothing raises. -/
theorem prepare_guarded_by_parent_witness :
    (prepare true (fun _ => false)).1 = PrepareOutcome.returned true ∧
    (prepare true (fun _ => false)).2 = prepareBody :=
  ⟨(prepare_guarded_by_parent true (fun _ => false)).2.2.2 rfl (fun _ => rfl),
    ((prepare_guarded_by_parent true (fun _ => false)).2.2.1
      ((prepare_guarded_by_parent true (fun _ => false)).2.2.2 rfl (fun _ => rfl))).1⟩

theorem headingsWithSameLine_optionCalls (to_u32 : Nat → Nat) (size : Nat) (j : Nat)
    (options : List String) (rest : List ImGuiCall) :
    headingsWithSameLine (optionCalls to_u32 size j options ++ ImGuiCall.PopID :: rest)
      = headingsWithSameLine rest := by
  induction options generalizing j with
  | nil => simp [optionCalls, headingsWithSameLine]
  | cons label more ih =>
    simp only [optionCalls]
    split <;> simp [headingsWithSameLine, ih]

theorem headings_optionCalls (to_u32 : Nat → Nat) (size : Nat) (j : Nat)
    (options : List String) (rest : List ImGuiCall) :
    headings (optionCalls to_u32 size j options ++ ImGuiCall.PopID :: rest)
      = headings rest := by
  induction options generalizing j with
  | nil => simp [optionCalls, headings]
  | cons label more ih =>
    simp only [optionCalls]
    split <;> simp [headings, ih]

theorem headingsWithSameLine_text_cons (d : String) (calls : List ImGuiCall)
    (h : ∀ more, calls ≠ ImGuiCall.SameLine :: more) :
    headingsWithSameLine (ImGuiCall.Text d :: calls) = headingsWithSameLine calls := by
  cases calls with
  | nil => simp [headingsWithSameLine]
  | cons c more =>
    cases c with
    | SameLine => exact absurd rfl (h more)
    | PushID id => simp [headingsWithSameLine]
    | Text d2 => rw [headingsWithSameLine]; simp
    | RadioButton label v => simp [headingsWithSameLine]
    | PopID => simp [headingsWithSameLine]

theorem headingsWithSameLine_text (d : String) (to_u32 : Nat → Nat) (size : Nat) (j : Nat)
    (options : List String) (rest : List ImGuiCall) :
    headingsWithSameLine
        (ImGuiCall.Text d :: (optionCalls to_u32 size j options ++ ImGuiCall.PopID :: rest))
      = headingsWithSameLine rest := by
  rw [headingsWithSameLine_text_cons, headingsWithSameLine_optionCalls]
  intro more h
  cases options with
  | nil =>
    have hh : (optionCalls to_u32 size j [] ++ ImGuiCall.PopID :: rest).head?
        = some ImGuiCall.PopID := rfl
    rw [h] at hh
    exact ImGuiCall.noConfusion (Option.some.inj hh)
  | cons label others =>
    have hh : (optionCalls to_u32 size j (label :: others) ++ ImGuiCall.PopID :: rest).head?
        = some (ImGuiCall.RadioButton label (to_u32 j)) := rfl
    rw [h] at hh
    exact ImGuiCall.noConfusion (Option.some.inj hh)

theorem bodyCalls_layout (to_u32 : Nat → Nat) (aspect : ℚ) (i : Nat)
    (radio_buttons : List RadioButtonGroup) :
    headingsWithSameLine (bodyCalls to_u32 aspect i radio_buttons)
      = (if aspect > 1 then radio_buttons.length else 0) ∧
    headings (bodyCalls to_u32 aspect i radio_buttons) = radio_buttons.length := by
  induction radio_buttons generalizing i with
  | nil => simp [bodyCalls, headingsWithSameLine, headings]
  | cons rb rest ih =>
    have h := ih (i + 1)
    by_cases ha : aspect > 1
    · simp only [ha, if_true] at h ⊢
      simp only [bodyCalls, ha, if_true, List.cons_append, List.nil_append, List.append_assoc,
        List.singleton_append]
      constructor
      · rw [headingsWithSameLine, headingsWithSameLine, headingsWithSameLine_optionCalls, h.1,
          List.length_cons]
        simp
      · rw [headings, headings, headings, headings_optionCalls, h.2, List.length_cons]
        all_goals simp
    · simp only [ha, if_false] at h ⊢
      simp only [bodyCalls, ha, if_false, List.append_nil, List.cons_append, List.nil_append,
        List.append_assoc, List.singleton_append]
      constructor
      · rw [headingsWithSameLine, headingsWithSameLine_text, h.1]
        simp
      · rw [headings, headings, headings_optionCalls, h.2, List.length_cons]
        simp

/-- C10: at aspect 1 the two tests of `draw_gui` disagree.  For every list of option sets the
line count at aspect 1 is the number of option sets, not its double, while no heading is
followed by `SameLine`, so every option set is laid out below its heading; with two option
sets the window is given 2 lines where the layout takes 4.  At every aspect the number of
headings followed by `SameLine` is all of them above 1 and none otherwise, and the line count
is doubled (in `size_t`) below 1 only. -/
theorem draw_gui_square_window (to_u32 : Nat → Nat) (radio_buttons : List RadioButtonGroup) :
    (draw_gui to_u32 1 radio_buttons).lines = to_u32 radio_buttons.length ∧
    headings (draw_gui to_u32 1 radio_buttons).body = radio_buttons.length ∧
    headingsWithSameLine (draw_gui to_u32 1 radio_buttons).body = 0 ∧
    ((draw_gui static_cast_u32 1 twoOptionSets).lines = 2 ∧
      headingsWithSameLine (draw_gui static_cast_u32 1 twoOptionSets).body = 0 ∧
      (draw_gui static_cast_u32 1 twoOptionSets).lines ≠ 2 * twoOptionSets.length) ∧
    (∀ aspect : ℚ,
      (draw_gui to_u32 aspect radio_buttons).lines
        = to_u32 (if aspect < 1 then (radio_buttons.length * 2) % SIZE_MAX_PLUS_ONE
            else radio_buttons.length) ∧
      headingsWithSameLine (draw_gui to_u32 aspect radio_buttons).body
        = (if aspect > 1 then radio_buttons.length else 0)) := by
  have h := bodyCalls_layout to_u32 1 0 radio_buttons
  refine ⟨by simp [draw_gui], by simpa [draw_gui] using h.2, by simpa [draw_gui] using h.1,
    by decide, ?_⟩
  intro aspect
  exact ⟨by simp [draw_gui], (bodyCalls_layout to_u32 aspect 0 radio_buttons).1⟩

/-! ## Claims on the buffer arena and the descriptor cache -/

/-- C6: `allocate(size, alignment)` rounds the offset of the block up to the least multiple
of `alignment` that is not below it, returns that offset and advances the offset by `size`;
it fails with `OutOfArenaSpace`, leaving the block as it was, exactly when the rounded offset
plus `size` exceeds the capacity.  On a block of capacity 256, allocations of 60, 70 and 50
bytes at alignment 16 return offsets 0, 64 and 144, and a fourth of 100 bytes fails.  For
every sequence of requests with positive alignments on a block whose offset is within its
capacity, the returned byte ranges are pairwise disjoint and lie inside the block, and the
offset stays within the capacity. -/
theorem arena_allocate_bump :
    (∀ (b : MemoryBlock) (size alignment : Nat), 0 < alignment →
      (alignment ∣ alignUp b.offset alignment ∧ b.offset ≤ alignUp b.offset alignment ∧
        (∀ m, alignment ∣ m → b.offset ≤ m → alignUp b.offset alignment ≤ m)) ∧
      (alignUp b.offset alignment + size ≤ b.capacity →
        b.allocate size alignment
          = (.ok { frame_slot := b.frame_slot, offset := alignUp b.offset alignment,
                   length := size, alignment := alignment },
             { b with offset := alignUp b.offset alignment + size })) ∧
      (b.capacity < alignUp b.offset alignment + size →
        b.allocate size alignment = (.error .OutOfArenaSpace, b))) ∧
    (scenarioBlock.allocateAll [(60, 16), (70, 16), (50, 16), (100, 16)]
      = ([.ok { frame_slot := 0, offset := 0, length := 60, alignment := 16 },
          .ok { frame_slot := 0, offset := 64, length := 70, alignment := 16 },
          .ok { frame_slot := 0, offset := 144, length := 50, alignment := 16 },
          .error .OutOfArenaSpace],
         { capacity := 256, offset := 194, frame_slot := 0 })) ∧
    (∀ (b : MemoryBlock) (reqs : List (Nat × Nat)), b.offset ≤ b.capacity →
      (∀ r ∈ reqs, 0 < r.2) →
      (granted (b.allocateAll reqs).1).Pairwise (fun a1 a2 => Disjoint a1.bytes a2.bytes) ∧
      (∀ a ∈ granted (b.allocateAll reqs).1, a.offset + a.length ≤ b.capacity) ∧
      (b.allocateAll reqs).2.offset ≤ (b.allocateAll reqs).2.capacity ∧
      (b.allocateAll reqs).2.capacity = b.capacity) := by
  refine ⟨?_, rfl, ?_⟩
  · intro b size alignment hal
    exact ⟨⟨alignUp_dvd _ _, alignUp_ge _ _ hal, fun m hm hle => alignUp_least _ _ m hal hm hle⟩,
      allocate_ok b size alignment, allocate_error b size alignment⟩
  · intro b reqs hb hal
    obtain ⟨i1, _, i3, i4, i5⟩ := allocateAll_ordered reqs b hal
    refine ⟨i5.imp (fun h => bytes_disjoint _ _ h), ?_, by rw [i1]; exact i3 hb, i1⟩
    intro a ha
    have := (i4 a ha).2
    have := i3 hb
    omega


/-- C7: under StoreInCache, starting from any well-formed cache (the empty cache is
well-formed and every request keeps it so), a request for S1 and a later request for S2 in
the same validity window return the same handle if and only if S1 = S2; a repeated signature
always succeeds and builds nothing, and a signature that differs, be it only in a resource
version, gets a new handle.  Under CreateDirectly two requests for the same signature return
two distinct handles.  A request succeeds whenever the pool is not exhausted. -/
theorem descriptor_cache_handles :
    (∀ cap : Nat, (DescriptorCache.empty cap).WF) ∧
    (∀ (strategy : DescriptorManagementStrategy) (frame : Nat) (c : DescriptorCache)
        (sig : BindingSignature) (hd : Nat) (c1 : DescriptorCache),
      c.WF → get_or_create strategy frame c sig = .ok (hd, c1) → c1.WF) ∧
    (∀ (c : DescriptorCache) (f1 f2 : Nat) (mid : List (Nat × BindingSignature))
        (s1 s2 : BindingSignature) (h1 h2 : Nat) (c1 c2 : DescriptorCache),
      c.WF →
      get_or_create .StoreInCache f1 c s1 = .ok (h1, c1) →
      get_or_create .StoreInCache f2 (requestAll .StoreInCache c1 mid) s2 = .ok (h2, c2) →
      (h1 = h2 ↔ s1 = s2) ∧
      (s1 = s2 → c2.constructed = (requestAll .StoreInCache c1 mid).constructed)) ∧
    (∀ (c : DescriptorCache) (f1 f2 : Nat) (mid : List (Nat × BindingSignature))
        (s1 : BindingSignature) (h1 : Nat) (c1 : DescriptorCache),
      get_or_create .StoreInCache f1 c s1 = .ok (h1, c1) →
      ∃ c2, get_or_create .StoreInCache f2 (requestAll .StoreInCache c1 mid) s1
        = .ok (h1, c2)) ∧
    (∀ (c : DescriptorCache) (f1 f2 : Nat) (s1 : BindingSignature) (h1 h2 : Nat)
        (c1 c2 : DescriptorCache),
      get_or_create .CreateDirectly f1 c s1 = .ok (h1, c1) →
      get_or_create .CreateDirectly f2 c1 s1 = .ok (h2, c2) → h1 ≠ h2) ∧
    (∀ (strategy : DescriptorManagementStrategy) (frame : Nat) (c : DescriptorCache)
        (sig : BindingSignature),
      c.constructed < c.pool_capacity →
      ∃ hd c1, get_or_create strategy frame c sig = .ok (hd, c1)) := by
  refine ⟨fun cap => ⟨by simp [DescriptorCache.empty], by simp [DescriptorCache.empty]⟩,
    fun strategy frame c sig hd c1 hwf hg => get_or_create_WF strategy frame c sig hd c1 hwf hg,
    ?_, ?_, ?_, ?_⟩
  · intro c f1 f2 mid s1 s2 h1 h2 c1 c2 hwf hg1 hg2
    have hwf1 := get_or_create_WF _ f1 c s1 h1 c1 hwf hg1
    have hwf2 := requestAll_WF .StoreInCache mid c1 hwf1
    have hst := requestAll_stored_kept mid c1 s1 h1 (stored_after_request f1 c s1 h1 c1 hg1)
    exact handle_decides_signature _ hwf2 s1 s2 h1 h2 hst f2 c2 hg2
  · intro c f1 f2 mid s1 h1 c1 hg1
    have hst := requestAll_stored_kept mid c1 s1 h1 (stored_after_request f1 c s1 h1 c1 hg1)
    cases hl : (requestAll .StoreInCache c1 mid).lookup s1 with
    | none => rw [hl] at hst; cases hst
    | some e =>
      rw [hl] at hst
      simp only [Option.map_some', Option.some.injEq] at hst
      exact ⟨_, by rw [store_hit _ s1 f2 e hl, hst]⟩
  · intro c f1 f2 s1 h1 h2 c1 c2 hg1 hg2
    obtain ⟨_, rfl, rfl⟩ := build_ok c h1 c1 hg1
    obtain ⟨_, rfl, _⟩ := build_ok _ h2 c2 hg2
    simp
  · intro strategy frame c sig hlt
    have hb : c.build = .ok (c.constructed, { c with constructed := c.constructed + 1 }) := by
      simp [DescriptorCache.build, hlt]
    cases strategy with
    | CreateDirectly => exact ⟨_, _, hb⟩
    | StoreInCache =>
      cases hl : c.lookup sig with
      | some e => exact ⟨_, _, store_hit c sig frame e hl⟩
      | none =>
        refine ⟨c.constructed,
          { c with constructed := c.constructed + 1,
                   entries := { signature := sig, handle := c.constructed, last_used := frame }
                     :: c.entries }, ?_⟩
        simp only [get_or_create, hl, hb]

/-- Witness for C7: the version bump of the scenario on an empty cache with a pool of four
sets: the first request gets handle 0, the request with the bumped version handle 1. -/
theorem descriptor_cache_handles_witness :
    (DescriptorCache.empty 4).WF ∧
    ((0 : Nat) = 1 ↔ scenarioSignature 1 = scenarioSignature 2) :=
  ⟨by decide,
    (descriptor_cache_handles.2.2.1 (DescriptorCache.empty 4) 0 0 [] (scenarioSignature 1)
      (scenarioSignature 2) 0 1 _ _ (by decide) rfl rfl).1⟩

/-- Witness for C6: the scenario block and its four requests. -/
theorem arena_allocate_bump_witness :
    scenarioBlock.offset ≤ scenarioBlock.capacity ∧
    (granted (scenarioBlock.allocateAll [(60, 16), (70, 16), (50, 16), (100, 16)]).1).Pairwise
      (fun a1 a2 => Disjoint a1.bytes a2.bytes) :=
  ⟨by decide,
    (arena_allocate_bump.2.2 scenarioBlock [(60, 16), (70, 16), (50, 16), (100, 16)]
      (by decide) (by decide)).1⟩


/-! ## Lemmas on runs that may raise -/

theorem statesFrom_updateBody (env : Env) (s : UpdateState) :
    statesFrom env updateBody s
      = [ (.application_update, stateAfter env s 0),
          (.update_scene, stateAfter env s 1),
          (.update_gui, stateAfter env s 2),
          (.get_render_context, stateAfter env s 3),
          (.render_context_begin, stateAfter env s 4),
          (.update_stats, stateAfter env s 5),
          (.select_buffer_alloc_strategy, stateAfter env s 6),
          (.set_buffer_allocation_strategy, stateAfter env s 7),
          (.select_descriptor_management_strategy, stateAfter env s 8),
          (.set_descriptor_management_strategy, stateAfter env s 9),
          (.command_buffer_begin, stateAfter env s 10),
          (.begin_sampling, stateAfter env s 11),
          (.draw, stateAfter env s 12),
          (.end_sampling, stateAfter env s 13),
          (.command_buffer_end, stateAfter env s 14),
          (.render_context_submit, stateAfter env s 15) ] := rfl

theorem execute_steps_initial (env : Env) (faults : Faults) (stmts : List Stmt)
    (s : UpdateState) : (execute env faults stmts s).steps <+: statesFrom env stmts s := by
  induction stmts generalizing s with
  | nil => simp [execute, statesFrom]
  | cons st rest ih =>
    unfold execute statesFrom
    by_cases h : faults.stops st = true
    · simp only [h, if_true]
      exact ⟨statesFrom env rest (exec env st s), rfl⟩
    · simp only [h, Bool.false_eq_true, if_false]
      exact (List.prefix_cons_inj _).2 (ih _)

theorem statesFrom_fst (env : Env) (stmts : List Stmt) (s : UpdateState) :
    (statesFrom env stmts s).map Prod.fst = stmts := by
  induction stmts generalizing s with
  | nil => rfl
  | cons st rest ih => simp [statesFrom, ih]

theorem execute_calls_in_order (env : Env) (faults : Faults) (stmts : List Stmt)
    (s : UpdateState) : (execute env faults stmts s).calls <+: stmts := by
  have h := (execute_steps_initial env faults stmts s).map Prod.fst
  rwa [statesFrom_fst] at h

theorem execute_returned (env : Env) (faults : Faults) (stmts : List Stmt) (s : UpdateState) :
    ((execute env faults stmts s).outcome = .returned ↔
      ∀ st ∈ stmts, faults.stops st = false) ∧
    ((execute env faults stmts s).outcome = .returned →
      (execute env faults stmts s).calls = stmts ∧
      (execute env faults stmts s).state = run env stmts s) := by
  induction stmts generalizing s with
  | nil => simp [execute, UpdateRun.calls, run]
  | cons st rest ih =>
    unfold execute
    by_cases h : faults.stops st = true
    · simp [h]
    · have h2 := ih (exec env st s)
      simp only [h, Bool.false_eq_true, if_false]
      have hf : faults.stops st = false := by simpa using h
      refine ⟨⟨fun hr x hx => ?_, fun hall => ?_⟩, fun hr => ?_⟩
      · rcases List.mem_cons.1 hx with rfl | hx
        · exact hf
        · exact h2.1.1 hr x hx
      · exact h2.1.2 (fun x hx => hall x (List.mem_cons_of_mem _ hx))
      · have := h2.2 hr
        simp only [UpdateRun.calls, List.map_cons] at this ⊢
        exact ⟨by rw [this.1], by rw [this.2]; rfl⟩

theorem execute_raised (env : Env) (faults : Faults) (stmts : List Stmt) (s : UpdateState)
    (st : Stmt) (h : (execute env faults stmts s).outcome = .raised st) :
    faults.stops st = true ∧
    ∃ t, (execute env faults stmts s).steps.getLast? = some (st, t) ∧
      (execute env faults stmts s).state = execRaised env faults st t := by
  induction stmts generalizing s with
  | nil => simp [execute] at h
  | cons x rest ih =>
    unfold execute at h ⊢
    by_cases hx : faults.stops x = true
    · simp only [hx, if_true] at h ⊢
      simp only [UpdateOutcome.raised.injEq] at h
      subst h
      exact ⟨hx, s, rfl, rfl⟩
    · simp only [hx, Bool.false_eq_true, if_false] at h ⊢
      obtain ⟨h1, t, h2, h3⟩ := ih (exec env x s) h
      refine ⟨h1, t, ?_, h3⟩
      rw [List.getLast?_cons, h2]
      rfl

theorem execRaised_keeps (env : Env) (faults : Faults) (st : Stmt) (t : UpdateState) :
    (execRaised env faults st t).frame.buffer_allocation_strategy
      = t.frame.buffer_allocation_strategy ∧
    (execRaised env faults st t).frame.descriptor_management_strategy
      = t.frame.descriptor_management_strategy := by
  cases st <;> simp only [execRaised, callExternal, and_self]
  exact ⟨(foldl_issueRequest_keeps _ _).2.2.2.1, (foldl_issueRequest_keeps _ _).2.2.2.2⟩

theorem updateRaising_shape (env : Env) (faults : Faults) (s : UpdateState) :
    ∃ n, n ≤ 16 ∧
      (updateRaising env faults s).steps = (statesFrom env updateBody s).take n ∧
      (updateRaising env faults s).calls = updateBody.take n ∧
      (((updateRaising env faults s).outcome = .returned ∧ n = 16 ∧
          (updateRaising env faults s).state = stateAfter env s 16) ∨
        (∃ st k, n = k + 1 ∧ updateBody[k]? = some st ∧
          (updateRaising env faults s).outcome = .raised st ∧ faults.stops st = true ∧
          (updateRaising env faults s).state = execRaised env faults st (stateAfter env s k))) := by
  have hpre : (updateRaising env faults s).steps <+: statesFrom env updateBody s :=
    execute_steps_initial env faults updateBody s
  have hsteps := List.prefix_iff_eq_take.1 hpre
  have hlen : (updateRaising env faults s).steps.length ≤ 16 := by
    have := hpre.length_le
    rw [statesFrom_updateBody] at this
    simpa [updateRaising] using this
  have hcalls : (updateRaising env faults s).calls
      = updateBody.take (updateRaising env faults s).steps.length := by
    have h := congrArg (List.map Prod.fst) hsteps
    rw [List.map_take, statesFrom_fst] at h
    exact h
  refine ⟨(updateRaising env faults s).steps.length, hlen, hsteps, hcalls, ?_⟩
  cases hout : (updateRaising env faults s).outcome with
  | returned =>
    left
    have h := (execute_returned env faults updateBody s).2 hout
    refine ⟨rfl, ?_, by rw [← update_eq_stateAfter]; exact h.2⟩
    have hl := congrArg List.length h.1
    simpa [UpdateRun.calls, updateBody] using hl
  | raised st =>
    right
    obtain ⟨hstop, t, hlast, hstate⟩ := execute_raised env faults updateBody s st hout
    change (updateRaising env faults s).steps.getLast? = some (st, t) at hlast
    change (updateRaising env faults s).state = execRaised env faults st t at hstate
    generalize (updateRaising env faults s).steps.length = n at hsteps hlen hcalls
    rw [hsteps, statesFrom_updateBody] at hlast
    interval_cases n
    · simp at hlast
    all_goals
      simp only [List.take_succ_cons, List.take_zero, List.take_nil, List.getLast?_cons_cons,
        List.getLast?_singleton, Option.some.injEq, Prod.mk.injEq] at hlast
      obtain ⟨rfl, rfl⟩ := hlast
      exact ⟨_, _, rfl, rfl, rfl, hstop, hstate⟩

theorem mem_statesFrom_updateBody (env : Env) (s : UpdateState) (st : Stmt) (t : UpdateState)
    (h : (st, t) ∈ statesFrom env updateBody s) :
    ∃ k, k < 16 ∧ updateBody[k]? = some st ∧ t = stateAfter env s k := by
  rw [statesFrom_updateBody] at h
  simp only [List.mem_cons, Prod.mk.injEq, List.mem_nil_iff, or_false] at h
  rcases h with h | h | h | h | h | h | h | h | h | h | h | h | h | h | h | h <;>
    obtain ⟨rfl, rfl⟩ := h
  · exact ⟨0, by omega, rfl, rfl⟩
  · exact ⟨1, by omega, rfl, rfl⟩
  · exact ⟨2, by omega, rfl, rfl⟩
  · exact ⟨3, by omega, rfl, rfl⟩
  · exact ⟨4, by omega, rfl, rfl⟩
  · exact ⟨5, by omega, rfl, rfl⟩
  · exact ⟨6, by omega, rfl, rfl⟩
  · exact ⟨7, by omega, rfl, rfl⟩
  · exact ⟨8, by omega, rfl, rfl⟩
  · exact ⟨9, by omega, rfl, rfl⟩
  · exact ⟨10, by omega, rfl, rfl⟩
  · exact ⟨11, by omega, rfl, rfl⟩
  · exact ⟨12, by omega, rfl, rfl⟩
  · exact ⟨13, by omega, rfl, rfl⟩
  · exact ⟨14, by omega, rfl, rfl⟩
  · exact ⟨15, by omega, rfl, rfl⟩

theorem strategies_from_draw (env : Env) (s : UpdateState) (k : Nat) (h12 : 12 ≤ k)
    (h16 : k ≤ 16) :
    (stateAfter env s k).frame.buffer_allocation_strategy
      = (if (stateAfter env s 6).values.buffer_allocation = 0
          then BufferAllocationStrategy.OneAllocationPerBuffer
          else BufferAllocationStrategy.MultipleAllocationsPerBuffer) ∧
    (stateAfter env s k).frame.descriptor_management_strategy
      = (if (stateAfter env s 8).values.descriptor_caching = 0
          then DescriptorManagementStrategy.CreateDirectly
          else DescriptorManagementStrategy.StoreInCache) := by
  rw [buffer_strategy_kept env s k (by omega) h16,
    descriptor_strategy_kept env s k (by omega) h16, buffer_strategy_after_set,
    descriptor_strategy_after_set]
  exact ⟨rfl, rfl⟩

/-- C4, as stated, fails: when `render_context.begin()` raises, `update` is left before line
83, so neither option value is read and neither strategy is set, and the slot keeps the
strategies it had. -/
theorem begin_raises_no_snapshot :
    (updateRaising guiEnv beginRaises freshState).outcome
      = UpdateOutcome.raised Stmt.render_context_begin ∧
    (updateRaising guiEnv beginRaises freshState).calls.count Stmt.select_buffer_alloc_strategy
      = 0 ∧
    (updateRaising guiEnv beginRaises freshState).calls.count Stmt.set_buffer_allocation_strategy
      = 0 ∧
    (updateRaising guiEnv beginRaises freshState).calls.count
      Stmt.select_descriptor_management_strategy = 0 ∧
    (updateRaising guiEnv beginRaises freshState).calls.count
      Stmt.set_descriptor_management_strategy = 0 ∧
    (updateRaising guiEnv beginRaises freshState).state.frame = freshState.frame := by
  decide

/-- C4, amended: in every execution of `update`, also one that a framework call ends by an
exception, each of the two option values is read at most once and each strategy of the frame
is set at most once, and exactly once in every execution that reaches
`command_buffer->begin`, in the order read, set, `command_buffer->begin`, `draw`.  No other
statement after `begin` changes a strategy of the frame, nor does a call that raises.  In
every execution that reaches `draw`, from the start of `draw` until `update` is left the
buffer allocation strategy of the frame is OneAllocationPerBuffer if the value read at line
83 was 0 and MultipleAllocationsPerBuffer otherwise, and its descriptor management strategy
is CreateDirectly if the value read at line 89 was 0 and StoreInCache otherwise, whatever the
framework calls do to the option values in between. -/
theorem update_snapshot_held (env : Env) (faults : Faults) (s : UpdateState) :
    ((updateRaising env faults s).calls.count Stmt.select_buffer_alloc_strategy ≤ 1 ∧
      (updateRaising env faults s).calls.count Stmt.set_buffer_allocation_strategy ≤ 1 ∧
      (updateRaising env faults s).calls.count Stmt.select_descriptor_management_strategy ≤ 1 ∧
      (updateRaising env faults s).calls.count Stmt.set_descriptor_management_strategy ≤ 1) ∧
    (Stmt.command_buffer_begin ∈ (updateRaising env faults s).calls →
      (updateRaising env faults s).calls.count Stmt.select_buffer_alloc_strategy = 1 ∧
      (updateRaising env faults s).calls.count Stmt.set_buffer_allocation_strategy = 1 ∧
      (updateRaising env faults s).calls.count Stmt.select_descriptor_management_strategy = 1 ∧
      (updateRaising env faults s).calls.count Stmt.set_descriptor_management_strategy = 1) ∧
    ((updateRaising env faults s).calls <+: updateBody ∧
      updateBody.indexOf Stmt.select_buffer_alloc_strategy
        < updateBody.indexOf Stmt.set_buffer_allocation_strategy ∧
      updateBody.indexOf Stmt.set_buffer_allocation_strategy
        < updateBody.indexOf Stmt.command_buffer_begin ∧
      updateBody.indexOf Stmt.select_descriptor_management_strategy
        < updateBody.indexOf Stmt.set_descriptor_management_strategy ∧
      updateBody.indexOf Stmt.set_descriptor_management_strategy
        < updateBody.indexOf Stmt.command_buffer_begin ∧
      updateBody.indexOf Stmt.command_buffer_begin < updateBody.indexOf Stmt.draw ∧
      updateBody.indexOf Stmt.draw < updateBody.indexOf Stmt.render_context_submit) ∧
    (∀ (st : Stmt) (t : UpdateState),
      (st ≠ Stmt.render_context_begin →
        (st ≠ Stmt.set_buffer_allocation_strategy →
          (exec env st t).frame.buffer_allocation_strategy
            = t.frame.buffer_allocation_strategy) ∧
        (st ≠ Stmt.set_descriptor_management_strategy →
          (exec env st t).frame.descriptor_management_strategy
            = t.frame.descriptor_management_strategy)) ∧
      (execRaised env faults st t).frame.buffer_allocation_strategy
        = t.frame.buffer_allocation_strategy ∧
      (execRaised env faults st t).frame.descriptor_management_strategy
        = t.frame.descriptor_management_strategy) ∧
    (∀ t6 t8 : UpdateState,
      (Stmt.select_buffer_alloc_strategy, t6) ∈ (updateRaising env faults s).steps →
      (Stmt.select_descriptor_management_strategy, t8) ∈ (updateRaising env faults s).steps →
      (∀ (st : Stmt) (t : UpdateState), (st, t) ∈ (updateRaising env faults s).steps →
        st ∈ [Stmt.draw, Stmt.end_sampling, Stmt.command_buffer_end,
          Stmt.render_context_submit] →
        t.frame.buffer_allocation_strategy
          = (if t6.values.buffer_allocation = 0
              then BufferAllocationStrategy.OneAllocationPerBuffer
              else BufferAllocationStrategy.MultipleAllocationsPerBuffer) ∧
        t.frame.descriptor_management_strategy
          = (if t8.values.descriptor_caching = 0
              then DescriptorManagementStrategy.CreateDirectly
              else DescriptorManagementStrategy.StoreInCache)) ∧
      (Stmt.draw ∈ (updateRaising env faults s).calls →
        (updateRaising env faults s).state.frame.buffer_allocation_strategy
          = (if t6.values.buffer_allocation = 0
              then BufferAllocationStrategy.OneAllocationPerBuffer
              else BufferAllocationStrategy.MultipleAllocationsPerBuffer) ∧
        (updateRaising env faults s).state.frame.descriptor_management_strategy
          = (if t8.values.descriptor_caching = 0
              then DescriptorManagementStrategy.CreateDirectly
              else DescriptorManagementStrategy.StoreInCache))) := by
  obtain ⟨n, hn, hsteps, hcalls, hend⟩ := updateRaising_shape env faults s
  have hfull : ∀ st t, (st, t) ∈ (updateRaising env faults s).steps →
      ∃ k, k < 16 ∧ updateBody[k]? = some st ∧ t = stateAfter env s k := by
    intro st t hm
    rw [hsteps] at hm
    exact mem_statesFrom_updateBody env s st t (List.mem_of_mem_take hm)
  refine ⟨?_, ?_, ⟨execute_calls_in_order env faults updateBody s, by decide⟩, ?_, ?_⟩
  · rw [hcalls]
    clear hend hsteps hfull
    interval_cases n <;> decide
  · rw [hcalls]
    clear hend hsteps hfull
    interval_cases n <;> decide
  · intro st t
    exact ⟨fun hb => ⟨fun h => exec_keeps_buffer_strategy env st t h hb,
      fun h => exec_keeps_descriptor_strategy env st t h hb⟩, execRaised_keeps env faults st t⟩
  · intro t6 t8 h6 h8
    obtain ⟨k6, hk6, hget6, rfl⟩ := hfull _ _ h6
    obtain ⟨k8, hk8, hget8, rfl⟩ := hfull _ _ h8
    have e6 : k6 = 6 := by
      interval_cases k6 <;> simp [updateBody] at hget6
      rfl
    have e8 : k8 = 8 := by
      interval_cases k8 <;> simp [updateBody] at hget8
      rfl
    subst e6 e8
    constructor
    · intro st t hm hst
      obtain ⟨k, hk, hget, rfl⟩ := hfull _ _ hm
      have h12 : 12 ≤ k := by
        by_contra hlt
        have hlt2 : k < 12 := by omega
        interval_cases k <;> simp [updateBody] at hget <;> subst hget <;>
          exact absurd hst (by decide)
      exact strategies_from_draw env s k h12 (by omega)
    · intro hdraw
      rcases hend with ⟨_, _, hstate⟩ | ⟨st, k, hk, hget, _, _, hstate⟩
      · rw [hstate]
        exact strategies_from_draw env s 16 (by omega) (by omega)
      · rw [hstate, (execRaised_keeps env faults st _).1, (execRaised_keeps env faults st _).2]
        subst hk
        have hk16 : k < 16 := by omega
        have h12 : 12 ≤ k := by
          by_contra hlt
          have hlt2 : k < 12 := by omega
          rw [hcalls] at hdraw
          interval_cases k <;> exact absurd hdraw (by decide)
        exact strategies_from_draw env s k h12 (by omega)

/-- Witness for C4: the slot starts with OneAllocationPerBuffer and CreateDirectly, the GUI
step sets the options to 2 and -3, and `draw` raises after its first request: the frame has
MultipleAllocationsPerBuffer and StoreInCache when `update` is left. -/
theorem update_snapshot_held_witness :
    (stateAfter guiEnv freshState 6).values.buffer_allocation = -3 ∧
    (stateAfter guiEnv freshState 8).values.descriptor_caching = 2 ∧
    freshState.frame.buffer_allocation_strategy
      = BufferAllocationStrategy.OneAllocationPerBuffer ∧
    (updateRaising guiEnv drawRaises freshState).state.frame.buffer_allocation_strategy
      = BufferAllocationStrategy.MultipleAllocationsPerBuffer ∧
    (updateRaising guiEnv drawRaises freshState).state.frame.descriptor_management_strategy
      = DescriptorManagementStrategy.StoreInCache := by
  have h := ((update_snapshot_held guiEnv drawRaises freshState).2.2.2.2
    (stateAfter guiEnv freshState 6) (stateAfter guiEnv freshState 8)
    (by decide) (by decide)).2 (by decide)
  exact ⟨by decide, by decide, rfl, h.1.trans (by decide), h.2.trans (by decide)⟩

end DescriptorManagement
